import Mathlib

/-!
Verification of the p1-forms CLI core (PingOne Forms export/import utility).

This file is a shallow embedding of the repository's API-access layer:

* `src/config.ts`  — URL builders and the region TLD enum,
* `src/auth.ts`    — OAuth client-credentials token acquisition with caching,
* `src/api.ts`     — resilient HTTP client (retry interceptor), `listForms`
                     pagination, and the error classification of `listForms`,
                     `downloadForm`, `uploadForm`,
* `src/forms.ts`   — the per-batch `downloadForms` / `uploadForms` drivers.

Effectful pieces are embedded by explicit state passing: the token cache is an
association list threaded through `getAccessToken`, network I/O is a parameter
(the outcome a request would produce), and `Date.now()` is an explicit `now`
argument.  Axios semantics relevant here: a rejected request surfaces as an
`AxiosError` carrying an optional `response`; network failures and timeouts
are `AxiosError`s whose `response` is absent, while non-Axios exceptions are
anything else thrown inside the `try` block.
-/

namespace P1Forms

/-- JS string truthiness for `a || b` where `a` may be `undefined`:
the empty string is falsy. -/
def jsOrElse (a : Option String) (b : String) : String :=
  match a with
  | some s => if s.isEmpty then b else s
  | none => b

/-- JS truthiness for `x || null` on an optional string field. -/
def jsTruthy (a : Option String) : Option String :=
  match a with
  | some s => if s.isEmpty then none else some s
  | none => none

/-- Region TLD enum from `src/types.ts` (`'com' | 'eu' | 'ca' | 'asia' | 'com.au' | 'sg'`). -/
inductive RegionTLD where
  | com
  | eu
  | ca
  | asia
  | comAu
  | sg
deriving DecidableEq, Repr

/-- String value of a region TLD, as it appears in URLs. -/
def RegionTLD.toStr : RegionTLD → String
  | .com => "com"
  | .eu => "eu"
  | .ca => "ca"
  | .asia => "asia"
  | .comAu => "com.au"
  | .sg => "sg"

/-- `EnvConfig` from `src/types.ts`.  The spec calls `envId` the tenant id and
`name` the display name. -/
structure EnvConfig where
  name : String
  envId : String
  clientId : String
  clientSecret : String
  tld : RegionTLD
deriving DecidableEq, Repr

/-- `FormSummary` from `src/types.ts`. -/
structure FormSummary where
  id : String
  name : String
  description : Option String := none
deriving DecidableEq, Repr

/-- `LocalFormFile` from `src/types.ts` (only the fields the import batch
driver reads; `isValid` files are the ones that reach `uploadForms`). -/
structure LocalFormFile where
  filename : String
  name : String
deriving DecidableEq, Repr

/-- `buildAuthUrl` from `src/config.ts`. -/
def buildAuthUrl (envId : String) (tld : RegionTLD) : String :=
  "https://auth.pingone." ++ tld.toStr ++ "/" ++ envId ++ "/as/token"

/-- `buildApiUrl` from `src/config.ts`. -/
def buildApiUrl (tld : RegionTLD) : String :=
  "https://api.pingone." ++ tld.toStr ++ "/v1"

/-! ### Base64 (Node `Buffer.from(s).toString('base64')`) -/

/-- The standard base64 alphabet. -/
def base64Alphabet : List Char :=
  "ABCDEFGHIJKLMNOPQRSTUVWXYZabcdefghijklmnopqrstuvwxyz0123456789+/".data

/-- Character for a 6-bit group. -/
def b64Char (n : Nat) : Char := base64Alphabet.getD n 'A'

/-- Standard base64 of a byte list, with `=` padding. -/
def base64Bytes : List Nat → List Char
  | [] => []
  | [b1] =>
      [b64Char (b1 / 4), b64Char (b1 % 4 * 16), '=', '=']
  | [b1, b2] =>
      [b64Char (b1 / 4), b64Char (b1 % 4 * 16 + b2 / 16), b64Char (b2 % 16 * 4), '=']
  | b1 :: b2 :: b3 :: rest =>
      b64Char (b1 / 4) :: b64Char (b1 % 4 * 16 + b2 / 16) ::
        b64Char (b2 % 16 * 4 + b3 / 64) :: b64Char (b3 % 64) :: base64Bytes rest

/-- Node's `Buffer.from(s).toString('base64')`.  For the ASCII strings used by
the program, each char's code point is exactly its UTF-8 byte. -/
def base64OfString (s : String) : String :=
  String.mk (base64Bytes (s.data.map Char.toNat))

/-! ### Token Manager (`src/auth.ts`) -/

/-- `TokenCache` entry from `src/types.ts`: the cached bearer token and its
expiry instant in epoch milliseconds. -/
structure TokenCacheEntry where
  token : String
  expiresAt : Int
deriving DecidableEq, Repr

/-- The module-global `tokenCache : Map<string, TokenCache>`, embedded as an
association list threaded through `getAccessToken`. -/
abbrev TokenCacheMap := List (String × TokenCacheEntry)

/-- `Map.get`. -/
def cacheGet (c : TokenCacheMap) (k : String) : Option TokenCacheEntry :=
  (c.find? (fun p => p.1 == k)).map Prod.snd

/-- `Map.set`: overwrite any previous binding of `k`. -/
def cacheSet (c : TokenCacheMap) (k : String) (v : TokenCacheEntry) : TokenCacheMap :=
  (k, v) :: c.filter (fun p => p.1 != k)

/-- The `response` of an `AxiosError`, with the two body fields the program
reads (`data.error_description` in auth, `data.message` in the API layer). -/
structure AxiosResp where
  status : Nat
  errorDescription : Option String := none
  dataMessage : Option String := none
deriving DecidableEq, Repr

/-- What a `catch` block observes.  Axios rejects HTTP error statuses with
`AxiosError` carrying `some` response, and network failures / timeouts with
`AxiosError` carrying no response; `nonAxios` is any other thrown value. -/
inductive Caught where
  | axios (response : Option AxiosResp) (message : String)
  | nonAxios
deriving DecidableEq, Repr

/-- Status code seen through `error.response?.status`. -/
def caughtStatus : Caught → Option Nat
  | .axios response _ => response.map (fun r => r.status)
  | .nonAxios => none

/-- Whether the caught error has the given HTTP status. -/
def isStatus (e : Caught) (n : Nat) : Bool := caughtStatus e == some n

/-- Message of the error thrown by the `catch` block of `getAccessToken`
(`src/auth.ts` lines 59-79).  `message` is
`error.response?.data?.error_description || error.message`. -/
def authErrorMessage (env : EnvConfig) (e : Caught) : String :=
  match e with
  | .axios response msg =>
    let status := response.map (fun r => r.status)
    let message := jsOrElse (response.bind (fun r => r.errorDescription)) msg
    if status == some 401 then
      "Authentication failed for " ++ env.name ++ ": Invalid client credentials"
    else if status == some 403 then
      "Access denied for " ++ env.name ++ ": Insufficient permissions"
    else
      "Failed to authenticate with " ++ env.name ++ ": " ++ message
  | .nonAxios =>
    "Network error while authenticating with " ++ env.name

/-- The token request assembled by `getAccessToken` (`src/auth.ts` lines
27-43): POST `grant_type=client_credentials` to the auth URL with Basic
credentials, form-urlencoded, 10s timeout. -/
structure TokenRequest where
  url : String
  authHeader : String
  body : String
  contentType : String
  timeout : Nat
deriving DecidableEq, Repr

/-- The request `getAccessToken` sends for a given credential. -/
def tokenRequest (env : EnvConfig) : TokenRequest :=
  { url := buildAuthUrl env.envId env.tld
  , authHeader := "Basic " ++ base64OfString (env.clientId ++ ":" ++ env.clientSecret)
  , body := "grant_type=client_credentials"
  , contentType := "application/x-www-form-urlencoded"
  , timeout := 10000 }

/-- Cache key `` `${env.envId}:${env.clientId}` `` (`src/auth.ts` line 11). -/
def cacheKey (env : EnvConfig) : String := env.envId ++ ":" ++ env.clientId

/-- Outcome of the (single) token-exchange network call, supplied as data. -/
inductive TokenNet where
  | success (accessToken : String) (expiresIn : Int)
  | failure (e : Caught)

/-- Result of one `getAccessToken` call: the returned token or thrown message,
the token cache after the call, and the request issued (none on a cache hit). -/
structure TokenResult where
  result : Except String String
  cache : TokenCacheMap
  request : Option TokenRequest
deriving Repr

/-- The non-cached path of `getAccessToken`: perform the exchange; on success
cache `expiresAt = now + expires_in * 1000` and return the token; on failure
throw the classified message, leaving the cache untouched. -/
def requestToken (env : EnvConfig) (cache : TokenCacheMap) (now : Int) (net : TokenNet) :
    TokenResult :=
  match net with
  | .success tok xin =>
    { result := .ok tok
    , cache := cacheSet cache (cacheKey env) { token := tok, expiresAt := now + xin * 1000 }
    , request := some (tokenRequest env) }
  | .failure e =>
    { result := .error (authErrorMessage env e)
    , cache := cache
    , request := some (tokenRequest env) }

/-- `getAccessToken` (`src/auth.ts` lines 7-80): return the cached token when
`cached.expiresAt > Date.now() + 30000`, otherwise run the exchange. -/
def getAccessToken (env : EnvConfig) (cache : TokenCacheMap) (now : Int) (net : TokenNet) :
    TokenResult :=
  match cacheGet cache (cacheKey env) with
  | some cached =>
    if now + 30000 < cached.expiresAt then
      { result := .ok cached.token, cache := cache, request := none }
    else
      requestToken env cache now net
  | none => requestToken env cache now net

/-! ### Resilient client retry interceptor (`src/api.ts` lines 86-142) -/

/-- MAX_RETRIES from `src/api.ts`. -/
def MAX_RETRIES : Nat := 3

/-- BASE_DELAY from `src/api.ts` (milliseconds). -/
def BASE_DELAY : Nat := 1000

/-- The retry test of the response interceptor, with JS truthiness:
`(error.response?.status === 429 || (error.response?.status &&
error.response.status >= 500)) && config._retryCount < MAX_RETRIES`. -/
def shouldRetry (status : Option Nat) (retryCount : Nat) : Bool :=
  (status == some 429 ||
    (match status with
     | some s => decide (s ≠ 0) && decide (500 ≤ s)
     | none => false)) &&
  decide (retryCount < MAX_RETRIES)

/-- What the interceptor does with one failed response. -/
inductive RetryDecision where
  | retry (newRetryCount : Nat) (delayMs : Nat)
  | reject
deriving DecidableEq, Repr

/-- The response-error interceptor (`src/api.ts` lines 106-139): when the
retry test passes, increment `_retryCount`, wait
`BASE_DELAY * 2 ^ (_retryCount - 1)` ms and resubmit the same request;
otherwise reject with the unchanged error. -/
def intercept (status : Option Nat) (retryCount : Nat) : RetryDecision :=
  if shouldRetry status retryCount then
    .retry (retryCount + 1) (BASE_DELAY * 2 ^ (retryCount + 1 - 1))
  else
    .reject

/-! ### listForms pagination (`src/api.ts` lines 144-203) -/

/-- One page of the forms collection as the loop reads it:
`data._embedded?.forms` (absent field modelled as `none`) and
`data._links?.next?.href`. -/
structure FormsPage where
  forms : Option (List FormSummary)
  nextHref : Option String
deriving Repr

/-- Drop everything up to and including the first `://`. -/
def afterSchemeSep : List Char → List Char
  | ':' :: '/' :: '/' :: rest => rest
  | _ :: cs => afterSchemeSep cs
  | [] => []

/-- Keep the tail starting at the first `/`. -/
def fromFirstSlash : List Char → List Char
  | [] => []
  | c :: cs => if c = '/' then c :: cs else fromFirstSlash cs

/-- The test `url.startsWith('http')`. -/
def startsWithHttp (s : String) : Bool :=
  match s.data with
  | 'h' :: 't' :: 't' :: 'p' :: _ => true
  | _ => false

/-- The absolute-to-relative conversion of the pagination loop:
`new URL(url).pathname + new URL(url).search` for a `scheme://host/path?query`
URL is the substring starting at the first slash after the scheme separator;
URLs not starting with `http` are left as they are. -/
def toRelative (url : String) : String :=
  if startsWithHttp url then
    String.mk (fromFirstSlash (afterSchemeSep url.data))
  else url

/-- Start URL of the listing, `` `/environments/${env.envId}/forms` ``. -/
def formsStartUrl (env : EnvConfig) : String :=
  "/environments/" ++ env.envId ++ "/forms"

/-- The pagination loop of `listForms`: fetch the page at `url`, append its
forms, follow `_links.next.href` (converted with `toRelative` when it starts
with `http`) while present.  The server is a function from request URL to the
page it returns; `fuel` bounds the loop (the JS `while` does not terminate on
a cyclic server, which `none` represents). -/
def collectForms (server : String → FormsPage) : Nat → String → Option (List FormSummary)
  | 0, _ => none
  | fuel + 1, url =>
    let page := server url
    let pageForms := page.forms.getD []
    match jsTruthy page.nextHref with
    | none => some pageForms
    | some nurl => (collectForms server fuel (toRelative nurl)).map (pageForms ++ ·)

/-- Stable insertion of one element for a Bool comparator. -/
def orderedInsertB (le : α → α → Bool) (a : α) : List α → List α
  | [] => [a]
  | b :: bs => if le a b then a :: b :: bs else b :: orderedInsertB le a bs

/-- Stable sort for a Bool comparator.  `Array.prototype.sort` with comparator
`c` is a stable sort by `c(a, b) <= 0`; for a total transitive comparator any
stable sort produces this list. -/
def insertionSortB (le : α → α → Bool) : List α → List α
  | [] => []
  | a :: as => orderedInsertB le a (insertionSortB le as)

/-- `listForms` (success path): page through the collection, then sort by
name.  `le` models `(a, b) => a.name.localeCompare(b.name)` being `<= 0`. -/
def listForms (le : FormSummary → FormSummary → Bool) (server : String → FormsPage)
    (fuel : Nat) (env : EnvConfig) : Option (List FormSummary) :=
  (collectForms server fuel (formsStartUrl env)).map (insertionSortB le)

/-! ### Operation error classification (`src/api.ts` catch blocks) -/

/-- Message of the error thrown by the `catch` block of `listForms`
(`src/api.ts` lines 182-202). -/
def listFormsErrorMessage (env : EnvConfig) (e : Caught) : String :=
  match e with
  | .axios response msg =>
    let status := response.map (fun r => r.status)
    let message := jsOrElse (response.bind (fun r => r.dataMessage)) msg
    if status == some 401 then
      "Authentication failed for " ++ env.name ++ ": Token may have expired"
    else if status == some 403 then
      "Access denied for " ++ env.name ++ ": Insufficient permissions to list forms"
    else if status == some 404 then
      "Forms endpoint not found for " ++ env.name
    else
      "API error for " ++ env.name ++ ": " ++ message
  | .nonAxios =>
    "Network error while fetching forms from " ++ env.name

/-- Message of the error thrown by the `catch` block of `downloadForm`
(`src/api.ts` lines 230-250). -/
def downloadFormErrorMessage (env : EnvConfig) (formId : String) (e : Caught) : String :=
  match e with
  | .axios response msg =>
    let status := response.map (fun r => r.status)
    let message := jsOrElse (response.bind (fun r => r.dataMessage)) msg
    if status == some 401 then
      "Authentication failed for " ++ env.name ++ ": Token may have expired"
    else if status == some 403 then
      "Access denied for " ++ env.name ++ ": Insufficient permissions to download form " ++ formId
    else if status == some 404 then
      "Form " ++ formId ++ " not found in " ++ env.name
    else
      "API error downloading form " ++ formId ++ " from " ++ env.name ++ ": " ++ message
  | .nonAxios =>
    "Network error while downloading form " ++ formId ++ " from " ++ env.name

/-- Message of the error thrown by the `catch` block of `uploadForm`
(`src/api.ts` lines 277-300); `formName` is `formData.name`. -/
def uploadFormErrorMessage (env : EnvConfig) (formName : String) (e : Caught) : String :=
  match e with
  | .axios response msg =>
    let status := response.map (fun r => r.status)
    let message := jsOrElse (response.bind (fun r => r.dataMessage)) msg
    if status == some 401 then
      "Authentication failed for " ++ env.name ++ ": Token may have expired"
    else if status == some 403 then
      "Access denied for " ++ env.name ++ ": Insufficient permissions to upload forms"
    else if status == some 400 then
      "Invalid form data for \"" ++ formName ++ "\": " ++ message
    else if status == some 409 then
      "Form \"" ++ formName ++ "\" already exists in " ++ env.name ++ " or there's a conflict"
    else
      "API error uploading form \"" ++ formName ++ "\" to " ++ env.name ++ ": " ++ message
  | .nonAxios =>
    "Network error while uploading form \"" ++ formName ++ "\" to " ++ env.name

/-! ### Batch drivers (`src/forms.ts`) -/

/-- Top-level JSON object of a form payload, with opaque values; enough to
express the export field stripping. -/
abbrev FormPayload := List (String × String)

/-- Fields deleted by `transformFormForExport` (`src/forms.ts` lines 57-78). -/
def exportRemovedFields : List String := ["_links", "id", "environment", "created", "modified"]

/-- `transformFormForExport`: copy the payload without the five
environment-specific fields. -/
def transformFormForExport (formData : FormPayload) : FormPayload :=
  formData.filter (fun kv => !(exportRemovedFields.contains kv.1))

/-- Filter of the filename sanitizer: `replace(/[^a-zA-Z0-9\s-_]/g, '')`. -/
def sanitizeKeep (cs : List Char) : List Char :=
  cs.filter (fun c => c.isAlphanum || c.isWhitespace || c = '-' || c = '_')

/-- Collapse of the filename sanitizer: `replace(/\s+/g, '-')`.  The flag
records whether the previous kept character was whitespace. -/
def collapseWs : Bool → List Char → List Char
  | _, [] => []
  | prevWs, c :: cs =>
    if c.isWhitespace then
      if prevWs then collapseWs true cs else '-' :: collapseWs true cs
    else c :: collapseWs false cs

/-- The sanitized filename stem built by `downloadForms`
(`src/forms.ts` lines 33-36): strip special characters, replace whitespace
runs with `-`, lowercase. -/
def sanitizedName (s : String) : String :=
  String.mk ((collapseWs false (sanitizeKeep s.data)).map Char.toLower)

/-- Trace of one export batch: which form ids had a download attempted, and
the batch result (the saved file paths, or the thrown message). -/
structure BatchTrace where
  attempted : List String
  result : Except String (List String)
deriving Repr

/-- `downloadForms` (`src/forms.ts` lines 13-55).  `dl` is the outcome of
`downloadForm` for a given summary (the raw payload or the thrown message);
`save` is the outcome of `saveFormToFile` on the cleaned payload and filename
(the path, `""` when the user declined to overwrite, or a thrown message).
A failure for one form is wrapped and rethrown, ending the loop. -/
def downloadForms (dl : FormSummary → Except String FormPayload)
    (save : FormPayload → String → Except String String) :
    List FormSummary → BatchTrace
  | [] => { attempted := [], result := .ok [] }
  | form :: rest =>
    let step : Except String String := do
      let raw ← dl form
      let cleaned := transformFormForExport raw
      save cleaned (sanitizedName form.name ++ ".json")
    match step with
    | .error msg =>
      { attempted := [form.id]
      , result := .error ("Failed to download form \"" ++ form.name ++ "\" (" ++
          form.id ++ "): " ++ msg) }
    | .ok filePath =>
      let t := downloadForms dl save rest
      { attempted := form.id :: t.attempted
      , result := t.result.map (fun paths => if filePath.isEmpty then paths else filePath :: paths) }

/-- `formData` as the import driver reads it: only its `name` field matters
for name resolution. -/
structure FormData where
  name : Option String
deriving DecidableEq, Repr

/-- Outcome of one import batch, plus which files had an upload attempted. -/
structure UploadOutcome where
  successful : List String
  failed : List (String × String)
  uploadAttempts : List String
deriving DecidableEq, Repr

/-- The load phase of `uploadForms` (`src/forms.ts` lines 91-103): files that
fail to load are recorded as failures, the rest proceed with their data. -/
def loadPhase (load : LocalFormFile → Except String FormData) :
    List LocalFormFile → List (String × String) × List (LocalFormFile × FormData)
  | [] => ([], [])
  | lf :: rest =>
    let r := loadPhase load rest
    match load lf with
    | .ok fd => (r.1, (lf, fd) :: r.2)
    | .error m => ((lf.filename, "Failed to load file: " ++ m) :: r.1, r.2)

/-- The upload phase of `uploadForms` (`src/forms.ts` lines 113-147): resolve
the form name as `nameMap.get(filename) || formData.name || localForm.name`,
upload, and record success or failure per file; every loaded file is
processed. -/
def uploadLoop (upl : LocalFormFile → String → Except String Unit)
    (nameMap : String → Option String) :
    List (LocalFormFile × FormData) → UploadOutcome
  | [] => { successful := [], failed := [], uploadAttempts := [] }
  | (lf, fd) :: rest =>
    let formName := jsOrElse (nameMap lf.filename) (jsOrElse fd.name lf.name)
    let r := uploadLoop upl nameMap rest
    match upl lf formName with
    | .ok _ =>
      { successful := lf.filename :: r.successful
      , failed := r.failed
      , uploadAttempts := lf.filename :: r.uploadAttempts }
    | .error m =>
      { successful := r.successful
      , failed := (lf.filename, m) :: r.failed
      , uploadAttempts := lf.filename :: r.uploadAttempts }

/-- `uploadForms` (`src/forms.ts` lines 80-150): load all files, then upload
each loaded one; load failures and upload failures are both reported in
`failed`. -/
def uploadForms (load : LocalFormFile → Except String FormData)
    (nameMap : String → Option String) (upl : LocalFormFile → String → Except String Unit)
    (localForms : List LocalFormFile) : UploadOutcome :=
  let phase := loadPhase load localForms
  if phase.2.isEmpty then
    { successful := [], failed := phase.1, uploadAttempts := [] }
  else
    let r := uploadLoop upl nameMap phase.2
    { successful := r.successful
    , failed := phase.1 ++ r.failed
    , uploadAttempts := r.uploadAttempts }

/-! ### Comparator and concrete fixtures -/

/-- Lexicographic Bool comparison of char lists. -/
def lexLe : List Char → List Char → Bool
  | [], _ => true
  | _ :: _, [] => false
  | a :: as, b :: bs => if a = b then lexLe as bs else decide (a < b)

/-- Concrete stand-in for `a.name.localeCompare(b.name) <= 0`: on the plain
lowercase ASCII names used in the pagination scenario, default-locale
collation coincides with code-point order. -/
def nameLe (a b : FormSummary) : Bool := lexLe a.name.data b.name.data

/-- A concrete environment credential (display name `Dev US`). -/
def envDevUS : EnvConfig :=
  { name := "Dev US"
  , envId := "11111111-2222-3333-4444-555555555555"
  , clientId := "aaaaaaaa-bbbb-cccc-dddd-eeeeeeeeeeee"
  , clientSecret := "secret-1"
  , tld := .com }

/-- The credential of the spec's token-request scenario (its clientId is the
literal elided string of the scenario). -/
def envC8 : EnvConfig :=
  { name := "EU Tenant"
  , envId := "11111111-2222-3333-4444-555555555555"
  , clientId := "aaaa..."
  , clientSecret := "s3cret"
  , tld := .eu }

/-- Credential A of the cache-sharing scenario. -/
def envShareA : EnvConfig :=
  { name := "Env A"
  , envId := "22222222-3333-4444-5555-666666666666"
  , clientId := "cccccccc-dddd-eeee-ffff-000000000000"
  , clientSecret := "secret-a"
  , tld := .com }

/-- Credential B: same tenant id and client id as A, every other field
different. -/
def envShareB : EnvConfig :=
  { name := "Env B"
  , envId := "22222222-3333-4444-5555-666666666666"
  , clientId := "cccccccc-dddd-eeee-ffff-000000000000"
  , clientSecret := "secret-b"
  , tld := .eu }

/-- A cache holding a token for `envDevUS` that expires at 100000ms. -/
def cacheDevUS : TokenCacheMap :=
  [("11111111-2222-3333-4444-555555555555:aaaaaaaa-bbbb-cccc-dddd-eeeeeeeeeeee",
    { token := "cached-token", expiresAt := 100000 })]

/-- A caught 500 response, as axios surfaces it. -/
def caught500 : Caught :=
  .axios (some { status := 500 }) "Request failed with status code 500"

/-- A caught timeout: an AxiosError with no response. -/
def caughtTimeout : Caught := .axios none "timeout of 10000ms exceeded"

/-- Form summaries of the pagination scenario, named so that arrival order
(d, b, e, a, c) differs from sorted order. -/
def fAlpha : FormSummary := { id := "f1", name := "alpha" }

/-- Second form of the pagination scenario. -/
def fBeta : FormSummary := { id := "f2", name := "beta" }

/-- Third form of the pagination scenario. -/
def fGamma : FormSummary := { id := "f3", name := "gamma" }

/-- Fourth form of the pagination scenario. -/
def fDelta : FormSummary := { id := "f4", name := "delta" }

/-- Fifth form of the pagination scenario. -/
def fEcho : FormSummary := { id := "f5", name := "echo" }

/-- The five summaries in arrival order (page1: d, b; page2: e, a; page3: c). -/
def rawFive : List FormSummary := [fDelta, fBeta, fEcho, fAlpha, fGamma]

/-- The five summaries sorted by name. -/
def sortedFive : List FormSummary := [fAlpha, fBeta, fDelta, fEcho, fGamma]

/-- A 3-page server (pages of 2, 2, 1 items) whose next links are absolute
URLs; the loop converts them to path+query form before the next fetch. -/
def serverAbs (url : String) : FormsPage :=
  if url == "/environments/11111111-2222-3333-4444-555555555555/forms" then
    { forms := some [fDelta, fBeta]
    , nextHref := some "https://api.pingone.com/v1/environments/11111111-2222-3333-4444-555555555555/forms?page=2" }
  else if url == "/v1/environments/11111111-2222-3333-4444-555555555555/forms?page=2" then
    { forms := some [fEcho, fAlpha]
    , nextHref := some "https://api.pingone.com/v1/environments/11111111-2222-3333-4444-555555555555/forms?page=3" }
  else if url == "/v1/environments/11111111-2222-3333-4444-555555555555/forms?page=3" then
    { forms := some [fGamma], nextHref := none }
  else
    { forms := none, nextHref := none }

/-- The same 3-page listing served with relative next links. -/
def serverRel (url : String) : FormsPage :=
  if url == "/environments/11111111-2222-3333-4444-555555555555/forms" then
    { forms := some [fDelta, fBeta]
    , nextHref := some "/environments/11111111-2222-3333-4444-555555555555/forms?page=2" }
  else if url == "/environments/11111111-2222-3333-4444-555555555555/forms?page=2" then
    { forms := some [fEcho, fAlpha]
    , nextHref := some "/environments/11111111-2222-3333-4444-555555555555/forms?page=3" }
  else if url == "/environments/11111111-2222-3333-4444-555555555555/forms?page=3" then
    { forms := some [fGamma], nextHref := none }
  else
    { forms := none, nextHref := none }

/-- First form of the export-batch scenario. -/
def formA : FormSummary := { id := "a", name := "Form A" }

/-- Second form of the export-batch scenario. -/
def formB : FormSummary := { id := "b", name := "Form B" }

/-- A download effect that fails for form `a` and succeeds for the rest. -/
def dlBoom (f : FormSummary) : Except String FormPayload :=
  if f.id == "a" then .error "API error downloading form a from Dev US: boom"
  else .ok [("name", f.name)]

/-- A save effect that always succeeds with a path under `forms/`. -/
def saveOk (_ : FormPayload) (filename : String) : Except String String :=
  .ok ("forms/" ++ filename)

/-- First local file of the import-batch scenario. -/
def lfX : LocalFormFile := { filename := "x.json", name := "x" }

/-- Second local file of the import-batch scenario. -/
def lfY : LocalFormFile := { filename := "y.json", name := "y" }

/-- A load effect that succeeds for every file. -/
def loadOk (lf : LocalFormFile) : Except String FormData := .ok { name := some lf.name }

/-- An upload effect that fails for `x.json` and succeeds for the rest. -/
def uplBoom (lf : LocalFormFile) (_ : String) : Except String Unit :=
  if lf.filename == "x.json" then .error "API error uploading form \"x\" to Dev US: boom"
  else .ok ()

/-! ### Helper lemmas -/

/-- A string is an infix of `pre ++ s`. -/
theorem strInfix_right (pre s : String) : s.data <:+: (pre ++ s).data :=
  ⟨pre.data, [], by simp [String.data_append]⟩

/-- A string is an infix of `pre ++ s ++ suf`. -/
theorem strInfix_mid (pre s suf : String) : s.data <:+: (pre ++ s ++ suf).data :=
  ⟨pre.data, suf.data, by simp [String.data_append]⟩

/-- A string is an infix of `pre ++ s ++ b ++ c`. -/
theorem strInfix_mid2 (pre s b c : String) : s.data <:+: (pre ++ s ++ b ++ c).data :=
  ⟨pre.data, b.data ++ c.data, by simp [String.data_append]⟩

/-- Looking up the key just written. -/
theorem cacheGet_cacheSet_self (c : TokenCacheMap) (k : String) (v : TokenCacheEntry) :
    cacheGet (cacheSet c k v) k = some v := by
  unfold cacheGet cacheSet
  rw [List.find?_cons_of_pos _ (by simp)]
  rfl

/-- Inserting one element permutes consing it. -/
theorem orderedInsertB_perm (le : α → α → Bool) (a : α) (l : List α) :
    (orderedInsertB le a l).Perm (a :: l) := by
  induction l with
  | nil => simp [orderedInsertB]
  | cons b bs ih =>
    by_cases h : le a b = true
    · simp [orderedInsertB, h]
    · simp only [orderedInsertB, if_neg h]
      exact (ih.cons b).trans (List.Perm.swap a b bs)

/-- The stable sort permutes its input. -/
theorem insertionSortB_perm (le : α → α → Bool) (l : List α) :
    (insertionSortB le l).Perm l := by
  induction l with
  | nil => simp [insertionSortB]
  | cons a as ih => exact (orderedInsertB_perm le a (insertionSortB le as)).trans (ih.cons a)

/-- Membership after inserting one element. -/
theorem mem_orderedInsertB {le : α → α → Bool} {a x : α} {l : List α} :
    x ∈ orderedInsertB le a l ↔ x = a ∨ x ∈ l := by
  rw [(orderedInsertB_perm le a l).mem_iff, List.mem_cons]

/-- Inserting into a list sorted by a total transitive comparator keeps it
sorted. -/
theorem pairwise_orderedInsertB (le : α → α → Bool)
    (htotal : ∀ a b, le a b = true ∨ le b a = true)
    (htrans : ∀ a b c, le a b = true → le b c = true → le a c = true)
    (a : α) (l : List α) (h : l.Pairwise (fun x y => le x y = true)) :
    (orderedInsertB le a l).Pairwise (fun x y => le x y = true) := by
  induction l with
  | nil => simp [orderedInsertB]
  | cons b bs ih =>
    rcases List.pairwise_cons.mp h with ⟨hb, hbs⟩
    by_cases hab : le a b = true
    · simp only [orderedInsertB, if_pos hab]
      refine List.pairwise_cons.mpr ⟨?_, h⟩
      intro y hy
      rcases List.mem_cons.mp hy with rfl | hy
      · exact hab
      · exact htrans a b y hab (hb y hy)
    · simp only [orderedInsertB, if_neg hab]
      refine List.pairwise_cons.mpr ⟨?_, ih hbs⟩
      intro y hy
      rcases mem_orderedInsertB.mp hy with heq | hy
      · rw [heq]
        rcases htotal a b with hc | hc
        · exact absurd hc hab
        · exact hc
      · exact hb y hy

/-- The stable sort sorts, for a total transitive comparator. -/
theorem pairwise_insertionSortB (le : α → α → Bool)
    (htotal : ∀ a b, le a b = true ∨ le b a = true)
    (htrans : ∀ a b c, le a b = true → le b c = true → le a c = true)
    (l : List α) :
    (insertionSortB le l).Pairwise (fun x y => le x y = true) := by
  induction l with
  | nil => simp [insertionSortB]
  | cons a as ih => exact pairwise_orderedInsertB le htotal htrans a _ ih

/-- Totality of the lexicographic comparison. -/
theorem lexLe_total : ∀ xs ys : List Char, lexLe xs ys = true ∨ lexLe ys xs = true := by
  intro xs
  induction xs with
  | nil => intro ys; left; simp [lexLe]
  | cons a as ih =>
    intro ys
    cases ys with
    | nil => right; simp [lexLe]
    | cons b bs =>
      by_cases hab : a = b
      · subst hab
        simpa [lexLe] using ih bs
      · rcases Ne.lt_or_lt hab with h | h
        · left; simp [lexLe, hab, h]
        · right; simp [lexLe, Ne.symm hab, h]

/-- Transitivity of the lexicographic comparison. -/
theorem lexLe_trans :
    ∀ xs ys zs : List Char, lexLe xs ys = true → lexLe ys zs = true → lexLe xs zs = true := by
  intro xs
  induction xs with
  | nil => intro ys zs _ _; simp [lexLe]
  | cons a as ih =>
    intro ys zs hxy hyz
    cases ys with
    | nil => simp [lexLe] at hxy
    | cons b bs =>
      cases zs with
      | nil => simp [lexLe] at hyz
      | cons c cs =>
        by_cases hab : a = b
        · subst hab
          simp only [lexLe, if_pos rfl] at hxy
          by_cases hbc : a = c
          · subst hbc
            simp only [lexLe, if_pos rfl] at hyz ⊢
            exact ih bs cs hxy hyz
          · simp only [lexLe, if_neg hbc] at hyz ⊢
            exact hyz
        · simp only [lexLe, if_neg hab, decide_eq_true_eq] at hxy
          by_cases hbc : b = c
          · subst hbc
            simp [lexLe, hab, hxy]
          · simp only [lexLe, if_neg hbc, decide_eq_true_eq] at hyz
            have hac : a < c := lt_trans hxy hyz
            have : a ≠ c := ne_of_lt hac
            simp [lexLe, this, hac]

/-- Totality of the name comparator. -/
theorem nameLe_total : ∀ a b : FormSummary, nameLe a b = true ∨ nameLe b a = true :=
  fun a b => lexLe_total a.name.data b.name.data

/-- Transitivity of the name comparator. -/
theorem nameLe_trans :
    ∀ a b c : FormSummary, nameLe a b = true → nameLe b c = true → nameLe a c = true :=
  fun a b c => lexLe_trans a.name.data b.name.data c.name.data

/-- Every loaded file gets an upload attempt, whatever the outcomes. -/
theorem uploadLoop_attempts (upl : LocalFormFile → String → Except String Unit)
    (nameMap : String → Option String) (loaded : List (LocalFormFile × FormData)) :
    (uploadLoop upl nameMap loaded).uploadAttempts = loaded.map (fun p => p.1.filename) := by
  induction loaded with
  | nil => rfl
  | cons p rest ih =>
    obtain ⟨lf, fd⟩ := p
    simp only [uploadLoop]
    cases upl lf (jsOrElse (nameMap lf.filename) (jsOrElse fd.name lf.name)) <;>
      simp [ih, List.map_cons]

/-! ### Claim theorems -/

/-- C1: the response interceptor resubmits a failed request iff the status is
429 or at least 500 and the request's retry counter is below 3; on retry the
counter is incremented and the delay before resubmission is
1000ms * 2^(retryCount-1) (1s, 2s, 4s for attempts 1-3); otherwise the error
is rejected unchanged (also when no response is present). -/
theorem intercept_retries_iff_429_or_5xx_and_under_max :
    (∀ s rc : Nat,
        intercept (some s) rc =
          if (s = 429 ∨ 500 ≤ s) ∧ rc < 3 then
            RetryDecision.retry (rc + 1) (1000 * 2 ^ rc)
          else RetryDecision.reject)
    ∧ (∀ rc : Nat, intercept none rc = RetryDecision.reject)
    ∧ intercept (some 429) 0 = RetryDecision.retry 1 1000
    ∧ intercept (some 500) 1 = RetryDecision.retry 2 2000
    ∧ intercept (some 503) 2 = RetryDecision.retry 3 4000
    ∧ intercept (some 429) 3 = RetryDecision.reject
    ∧ intercept (some 404) 0 = RetryDecision.reject := by
  refine ⟨?_, ?_, by decide, by decide, by decide, by decide, by decide⟩
  · intro s rc
    have key : shouldRetry (some s) rc = true ↔ (s = 429 ∨ 500 ≤ s) ∧ rc < 3 := by
      simp only [shouldRetry, MAX_RETRIES, Bool.and_eq_true, Bool.or_eq_true,
        beq_iff_eq, Option.some.injEq, decide_eq_true_eq]
      omega
    by_cases h : (s = 429 ∨ 500 ≤ s) ∧ rc < 3
    · rw [if_pos h]
      have hs : shouldRetry (some s) rc = true := key.mpr h
      simp [intercept, hs, BASE_DELAY]
    · rw [if_neg h]
      have hs : shouldRetry (some s) rc = false := by
        rw [Bool.eq_false_iff]
        intro hc
        exact h (key.mp hc)
      simp [intercept, hs]
  · intro rc
    simp [intercept, shouldRetry]

/-- C4: for a request that received no HTTP response at all (axios timeout or
network failure, an AxiosError without a response), getAccessToken raises the
generic authentication-failed classification, not the dedicated network-error
one: the network-error branch is reachable only for non-AxiosError
exceptions.  This records the divergence between the code and the claim. -/
theorem getAccessToken_no_response_uses_generic_classification :
    (getAccessToken envDevUS [] 0 (.failure caughtTimeout)).result
      = .error "Failed to authenticate with Dev US: timeout of 10000ms exceeded"
    ∧ authErrorMessage envDevUS caughtTimeout
      ≠ "Network error while authenticating with Dev US"
    ∧ authErrorMessage envDevUS .nonAxios
      = "Network error while authenticating with Dev US" := by
  exact ⟨rfl, by decide, rfl⟩

/-- C8: for the scenario credential (tenant 11111111-2222-3333-4444-555555555555,
client id "aaaa...", secret "s3cret", region eu), getAccessToken issues its
token request to https://auth.pingone.eu/<tenant>/as/token with
Authorization Basic base64("aaaa...:s3cret"), body grant_type=client_credentials
and form-urlencoded content type. -/
theorem getAccessToken_request_shape (net : TokenNet) :
    (getAccessToken envC8 [] 0 net).request = some
      { url := "https://auth.pingone.eu/11111111-2222-3333-4444-555555555555/as/token"
      , authHeader := "Basic " ++ base64OfString ("aaaa..." ++ ":" ++ "s3cret")
      , body := "grant_type=client_credentials"
      , contentType := "application/x-www-form-urlencoded"
      , timeout := 10000 }
    ∧ base64OfString "aaaa...:s3cret" = "YWFhYS4uLjpzM2NyZXQ=" := by
  refine ⟨?_, rfl⟩
  cases net <;> rfl

/-- C10: when the token exchange fails (any caught error), the token cache is
left exactly as it was, so a later call with the same credential behaves as
if the failed call had never happened. -/
theorem getAccessToken_failure_leaves_cache (env : EnvConfig) (cache : TokenCacheMap)
    (now now2 : Int) (e : Caught) (net2 : TokenNet) :
    (getAccessToken env cache now (.failure e)).cache = cache
    ∧ getAccessToken env (getAccessToken env cache now (.failure e)).cache now2 net2
        = getAccessToken env cache now2 net2 := by
  have h : (getAccessToken env cache now (.failure e)).cache = cache := by
    cases hc : cacheGet cache (cacheKey env) with
    | none => simp [getAccessToken, requestToken, hc]
    | some c =>
      by_cases h2 : now + 30000 < c.expiresAt <;>
        simp [getAccessToken, requestToken, hc, h2]
  exact ⟨h, by rw [h]⟩

/-- C2: getAccessToken returns the cached token and issues no request when a
cache entry exists with expiresAt - now > 30000; otherwise it issues exactly
one token request, and on success stores expiresAt = now + expires_in * 1000
and returns the new token. -/
theorem getAccessToken_cache_spec (env : EnvConfig) (cache : TokenCacheMap)
    (now : Int) (net : TokenNet) :
    (∀ e, cacheGet cache (cacheKey env) = some e → 30000 < e.expiresAt - now →
        getAccessToken env cache now net =
          { result := .ok e.token, cache := cache, request := none })
    ∧ ((∀ e, cacheGet cache (cacheKey env) = some e → e.expiresAt - now ≤ 30000) →
        (getAccessToken env cache now net).request = some (tokenRequest env)
        ∧ ∀ tok xin, net = .success tok xin →
            getAccessToken env cache now net =
              { result := .ok tok
              , cache := cacheSet cache (cacheKey env)
                  { token := tok, expiresAt := now + xin * 1000 }
              , request := some (tokenRequest env) }) := by
  constructor
  · intro e he hf
    have hlt : now + 30000 < e.expiresAt := by omega
    simp [getAccessToken, he, hlt]
  · intro hstale
    have hr : getAccessToken env cache now net = requestToken env cache now net := by
      cases hc : cacheGet cache (cacheKey env) with
      | none => simp [getAccessToken, hc]
      | some c =>
        have hge : ¬ (now + 30000 < c.expiresAt) := by
          have := hstale c hc
          omega
        simp [getAccessToken, hc, hge]
    refine ⟨?_, ?_⟩
    · rw [hr]
      cases net <;> rfl
    · intro tok xin hnet
      subst hnet
      rw [hr]
      rfl

/-- Witness for the C2 theorem: a fresh cache entry is returned with no
request; an empty cache leads to one request and a stored entry. -/
theorem getAccessToken_cache_spec_witness :
    getAccessToken envDevUS cacheDevUS 0 (.failure .nonAxios) =
      { result := .ok "cached-token", cache := cacheDevUS, request := none }
    ∧ getAccessToken envDevUS [] 0 (.success "new-token" 3600) =
      { result := .ok "new-token"
      , cache := cacheSet [] (cacheKey envDevUS)
          { token := "new-token", expiresAt := 3600000 }
      , request := some (tokenRequest envDevUS) } := by
  constructor
  · exact (getAccessToken_cache_spec envDevUS cacheDevUS 0 (.failure .nonAxios)).1
      { token := "cached-token", expiresAt := 100000 } rfl (by decide)
  · exact ((getAccessToken_cache_spec envDevUS [] 0 (.success "new-token" 3600)).2
      (by intro e he; simp [cacheGet] at he)).2 "new-token" 3600 rfl

/-- C7: the token cache key is the pair (tenant id, client id): two
credentials agreeing on those two fields share one cache entry, and a token
cached through the first is returned for the second while still fresh, with
no request issued. -/
theorem tokenCache_shared_across_credentials (e1 e2 : EnvConfig) (cache : TokenCacheMap)
    (now now2 : Int) (tok : String) (xin : Int) (net2 : TokenNet)
    (hid : e1.envId = e2.envId) (hcl : e1.clientId = e2.clientId)
    (hmiss : cacheGet cache (cacheKey e1) = none)
    (hfresh : 30000 < (now + xin * 1000) - now2) :
    cacheKey e1 = cacheKey e2
    ∧ getAccessToken e2 (getAccessToken e1 cache now (.success tok xin)).cache now2 net2
        = { result := .ok tok
          , cache := (getAccessToken e1 cache now (.success tok xin)).cache
          , request := none } := by
  have hkey : cacheKey e1 = cacheKey e2 := by
    simp [cacheKey, hid, hcl]
  refine ⟨hkey, ?_⟩
  have h1 : (getAccessToken e1 cache now (.success tok xin)).cache
      = cacheSet cache (cacheKey e1) { token := tok, expiresAt := now + xin * 1000 } := by
    simp [getAccessToken, hmiss, requestToken]
  have hget : cacheGet (cacheSet cache (cacheKey e1)
        { token := tok, expiresAt := now + xin * 1000 }) (cacheKey e2)
      = some { token := tok, expiresAt := now + xin * 1000 } := by
    rw [← hkey]
    exact cacheGet_cacheSet_self cache (cacheKey e1) _
  have hlt : now2 + 30000 < now + xin * 1000 := by omega
  rw [h1]
  simp [getAccessToken, hget, hlt, h1]

/-- Witness for the C7 theorem: two credentials differing in display name,
secret and region but agreeing on tenant id and client id share the token. -/
theorem tokenCache_shared_across_credentials_witness :
    cacheKey envShareA = cacheKey envShareB
    ∧ getAccessToken envShareB
        (getAccessToken envShareA [] 0 (.success "shared-token" 3600)).cache 1000
        (.failure .nonAxios)
      = { result := .ok "shared-token"
        , cache := (getAccessToken envShareA [] 0 (.success "shared-token" 3600)).cache
        , request := none } := by
  exact tokenCache_shared_across_credentials envShareA envShareB [] 0 1000
    "shared-token" 3600 (.failure .nonAxios) rfl rfl rfl (by decide)

/-- C9: a 404 from downloadForm yields an error message containing both the
requested form id and the environment's display name. -/
theorem downloadForm_404_message (env : EnvConfig) (formId : String)
    (r : AxiosResp) (msg : String) (h : r.status = 404) :
    formId.data <:+: (downloadFormErrorMessage env formId (.axios (some r) msg)).data
    ∧ env.name.data <:+: (downloadFormErrorMessage env formId (.axios (some r) msg)).data := by
  have hmsg : downloadFormErrorMessage env formId (.axios (some r) msg)
      = "Form " ++ formId ++ " not found in " ++ env.name := by
    simp [downloadFormErrorMessage, h]
  rw [hmsg]
  exact ⟨strInfix_mid2 "Form " formId " not found in " env.name,
    strInfix_right ("Form " ++ formId ++ " not found in ") env.name⟩

/-- Witness for the C9 theorem: 404 for id f-1 in environment Dev US. -/
theorem downloadForm_404_message_witness :
    "f-1".data <:+: (downloadFormErrorMessage envDevUS "f-1"
        (.axios (some { status := 404 }) "Request failed with status code 404")).data
    ∧ "Dev US".data <:+: (downloadFormErrorMessage envDevUS "f-1"
        (.axios (some { status := 404 }) "Request failed with status code 404")).data := by
  exact downloadForm_404_message envDevUS "f-1" { status := 404 }
    "Request failed with status code 404" rfl

/-- C5 counterexample: uploadForm's 400 classification,
"Invalid form data for \"My Form\": bad payload", does not contain the
environment's display name "Dev US". -/
theorem uploadForm_400_message_omits_env_name :
    uploadFormErrorMessage envDevUS "My Form"
        (.axios (some { status := 400, dataMessage := some "bad payload" })
          "Request failed with status code 400")
      = "Invalid form data for \"My Form\": bad payload"
    ∧ ¬ ("Dev US".data <:+: (uploadFormErrorMessage envDevUS "My Form"
        (.axios (some { status := 400, dataMessage := some "bad payload" })
          "Request failed with status code 400")).data) := by
  exact ⟨rfl, by decide⟩

/-- C5 amended: every error raised by listForms and downloadForm (any caught
error, any status including 400), and every error raised by uploadForm
except its 400 (invalid form data) classification, includes the
environment's display name in its message; uploadForm's 400 message carries
the form name and platform message but not the environment name. -/
theorem operation_errors_tag_env_name (env : EnvConfig) (formId formName : String)
    (e : Caught) :
    env.name.data <:+: (listFormsErrorMessage env e).data
    ∧ env.name.data <:+: (downloadFormErrorMessage env formId e).data
    ∧ (isStatus e 400 = false →
        env.name.data <:+: (uploadFormErrorMessage env formName e).data) := by
  cases e with
  | nonAxios =>
    exact ⟨strInfix_right "Network error while fetching forms from " env.name,
      strInfix_right ("Network error while downloading form " ++ formId ++ " from ") env.name,
      fun _ =>
        strInfix_right ("Network error while uploading form \"" ++ formName ++ "\" to ") env.name⟩
  | axios response msg =>
    refine ⟨?_, ?_, ?_⟩
    · simp only [listFormsErrorMessage]
      split_ifs <;>
        first
          | exact strInfix_right _ _
          | exact strInfix_mid _ _ _
          | exact strInfix_mid2 _ _ _ _
    · simp only [downloadFormErrorMessage]
      split_ifs <;>
        first
          | exact strInfix_right _ _
          | exact strInfix_mid _ _ _
          | exact strInfix_mid2 _ _ _ _
    · intro h400
      have h400x : ((response.map (fun r => r.status)) == some 400) = false := by
        simpa [isStatus, caughtStatus] using h400
      simp only [uploadFormErrorMessage, h400x, Bool.false_eq_true, if_false]
      split_ifs <;>
        first
          | exact strInfix_right _ _
          | exact strInfix_mid _ _ _
          | exact strInfix_mid2 _ _ _ _

/-- Witness for the amended C5 theorem: a 500 response in environment Dev US
is tagged with "Dev US" by all three operations, and a 400 response is
tagged by listForms and downloadForm. -/
theorem operation_errors_tag_env_name_witness :
    ("Dev US".data <:+: (listFormsErrorMessage envDevUS caught500).data
      ∧ "Dev US".data <:+: (downloadFormErrorMessage envDevUS "f-1" caught500).data
      ∧ "Dev US".data <:+: (uploadFormErrorMessage envDevUS "My Form" caught500).data)
    ∧ ("Dev US".data <:+: (listFormsErrorMessage envDevUS
          (.axios (some { status := 400, dataMessage := some "bad payload" })
            "Request failed with status code 400")).data
      ∧ "Dev US".data <:+: (downloadFormErrorMessage envDevUS "f-1"
          (.axios (some { status := 400, dataMessage := some "bad payload" })
            "Request failed with status code 400")).data) := by
  have h500 := operation_errors_tag_env_name envDevUS "f-1" "My Form" caught500
  have h400 := operation_errors_tag_env_name envDevUS "f-1" "My Form"
    (.axios (some { status := 400, dataMessage := some "bad payload" })
      "Request failed with status code 400")
  exact ⟨⟨h500.1, h500.2.1, h500.2.2 (by decide)⟩, h400.1, h400.2.1⟩

/-- C3: listForms pages until no next link is present (converting absolute
next links to path+query form), and returns a name-sorted permutation of the
accumulated summaries; in particular the 3-page listing with pages of 2, 2
and 1 items yields exactly the 5 distinct summaries in sorted order, with
absolute as well as relative next links. -/
theorem listForms_paginates_and_sorts :
    (∀ (le : FormSummary → FormSummary → Bool) (server : String → FormsPage)
        (fuel : Nat) (env : EnvConfig) (acc : List FormSummary),
        collectForms server fuel (formsStartUrl env) = some acc →
          listForms le server fuel env = some (insertionSortB le acc)
          ∧ (insertionSortB le acc).Perm acc
          ∧ ((∀ a b, le a b = true ∨ le b a = true) →
             (∀ a b c, le a b = true → le b c = true → le a c = true) →
             (insertionSortB le acc).Pairwise (fun a b => le a b = true)))
    ∧ listForms nameLe serverAbs 5 envDevUS = some sortedFive
    ∧ listForms nameLe serverRel 5 envDevUS = some sortedFive
    ∧ sortedFive.length = 5
    ∧ sortedFive.Nodup := by
  refine ⟨?_, by decide, by decide, by decide, by decide⟩
  intro le server fuel env acc hacc
  exact ⟨by simp [listForms, hacc],
    insertionSortB_perm le acc,
    fun htotal htrans => pairwise_insertionSortB le htotal htrans acc⟩

/-- Witness for the C3 theorem: the absolute-link 3-page server accumulates
the five summaries in arrival order, and the sort of that accumulation is a
sorted permutation of it. -/
theorem listForms_paginates_and_sorts_witness :
    listForms nameLe serverAbs 5 envDevUS = some (insertionSortB nameLe rawFive)
    ∧ (insertionSortB nameLe rawFive).Perm rawFive
    ∧ (insertionSortB nameLe rawFive).Pairwise (fun a b => nameLe a b = true) := by
  have h := listForms_paginates_and_sorts.1 nameLe serverAbs 5 envDevUS rawFive rfl
  exact ⟨h.1, h.2.1, h.2.2 nameLe_total nameLe_trans⟩

/-- C6 counterexample: in an export batch [Form A, Form B] where Form A's
download fails, Form B's download is never attempted — the failure aborts
the batch instead of only being surfaced for Form A. -/
theorem downloadForms_failure_blocks_rest :
    (downloadForms dlBoom saveOk [formA, formB]).attempted = ["a"]
    ∧ ¬ ("b" ∈ (downloadForms dlBoom saveOk [formA, formB]).attempted)
    ∧ (downloadForms dlBoom saveOk [formB, formA]).attempted = ["b", "a"] := by
  exact ⟨rfl, by decide, rfl⟩

/-- C6 amended: in an import batch every loaded file's upload is attempted
regardless of other files' failures, each failure being recorded per file;
in an export batch the first failing download is surfaced as an error for
that form but ends the batch — forms after it are not attempted. -/
theorem batch_failure_isolation
    (load : LocalFormFile → Except String FormData) (nameMap : String → Option String)
    (upl : LocalFormFile → String → Except String Unit) (localForms : List LocalFormFile)
    (dl : FormSummary → Except String FormPayload)
    (save : FormPayload → String → Except String String)
    (pre : List FormSummary) (f : FormSummary) (post : List FormSummary) (m : String)
    (hpre : ∀ g ∈ pre, ∃ p, dl g = .ok p ∧
        ∃ q, save (transformFormForExport p) (sanitizedName g.name ++ ".json") = .ok q)
    (hf : dl f = .error m) :
    (uploadForms load nameMap upl localForms).uploadAttempts
        = (loadPhase load localForms).2.map (fun p => p.1.filename)
    ∧ (downloadForms dl save (pre ++ f :: post)).attempted
        = pre.map (fun g => g.id) ++ [f.id]
    ∧ (downloadForms dl save (pre ++ f :: post)).result
        = .error ("Failed to download form \"" ++ f.name ++ "\" (" ++ f.id ++ "): " ++ m) := by
  refine ⟨?_, ?_⟩
  · unfold uploadForms
    by_cases h : (loadPhase load localForms).2.isEmpty
    · simp [h, List.isEmpty_iff.mp h]
    · simp [h, uploadLoop_attempts]
  · induction pre with
    | nil =>
      have hstep : (do
          let raw ← dl f
          let cleaned := transformFormForExport raw
          save cleaned (sanitizedName f.name ++ ".json") : Except String String)
          = .error m := by
        rw [hf]
        rfl
      constructor <;> simp [downloadForms, hstep]
    | cons g rest ih =>
      obtain ⟨p, hp, q, hq⟩ := hpre g (List.mem_cons_self g rest)
      have hstep : (do
          let raw ← dl g
          let cleaned := transformFormForExport raw
          save cleaned (sanitizedName g.name ++ ".json") : Except String String)
          = .ok q := by
        rw [hp]
        simpa using hq
      have ihr := ih (fun x hx => hpre x (List.mem_cons_of_mem g hx))
      constructor
      · simp [downloadForms, hstep, ihr.1]
      · simp [downloadForms, hstep, ihr.2, Except.map]

/-- Witness for the amended C6 theorem: with two local files whose first
upload fails, both uploads are attempted; with an export batch failing on
its first form, only that form is attempted and the wrapped error is
returned. -/
theorem batch_failure_isolation_witness :
    (uploadForms loadOk (fun _ => none) uplBoom [lfX, lfY]).uploadAttempts
        = ["x.json", "y.json"]
    ∧ (downloadForms dlBoom saveOk [formA, formB]).attempted = ["a"]
    ∧ (downloadForms dlBoom saveOk [formA, formB]).result
        = .error ("Failed to download form \"Form A\" (a): " ++
            "API error downloading form a from Dev US: boom") := by
  have h := batch_failure_isolation loadOk (fun _ => none) uplBoom [lfX, lfY]
    dlBoom saveOk [] formA [formB] "API error downloading form a from Dev US: boom"
    (by intro g hg; exact absurd hg (List.not_mem_nil g)) rfl
  exact ⟨h.1.trans rfl, h.2.1.trans rfl, h.2.2.trans rfl⟩

end P1Forms
